import Mathlib

/-!
Verification of the training/validation orchestration of `animesion/classification`.

Shallow embedding of the orchestration logic of `classification/train.py` and
`classification/inference.py`.  Scalar losses are rationals; tensors along the
text dimension are lists; the model forward pass is abstracted by the per-batch
scalar values it produces; the mask scheduler is an opaque function from the
shared step counter to whether a mask is returned (and, where the mask's
contents matter, to the mask itself).
-/

namespace Animesion

/-- The configuration values of a run (`args` in `train.py`) that the
orchestration logic reads. -/
structure Args where
  multimodal : Bool
  mask_schedule : Bool
  exclusion_loss : Bool
  exclusion_weight : ℚ
  temperature : ℚ
  max_text_seq_len : ℕ
  log_freq : ℕ
  debugging : Bool
  no_epochs : ℕ
deriving Repr

/-- Loss composition of `train.py` lines 118-122 (textually identical in
`validate`, lines 209-213): the classification cross-entropy, plus the
masked-text cross-entropy when the scheduler returned a mask this step, minus
`exclusion_weight * temperature^2 * exclusion_loss` when that objective is
enabled.  `ceCls`, `ceText` and `excl` abstract the scalar values produced by
the criteria and the model for this batch. -/
def composeLoss (args : Args) (maskActive : Bool) (ceCls ceText excl : ℚ) : ℚ :=
  let loss := ceCls
  let loss := if maskActive = true then loss + ceText else loss
  if args.exclusion_loss = true then
    loss - args.exclusion_weight * args.temperature ^ 2 * excl
  else loss

/-- Text-supervision targets, `train.py` lines 99-102 (same in `validate`,
lines 190-193): caption positions whose token is `[PAD]` (0), `[CLS]` (101) or
`[SEP]` (102) receive the ignored label -100, and afterwards the positions
marked 1 in the last `max_text_seq_len` entries of the scheduler's mask
(`masks[:, -max_text_seq_len:]`) are also set to -100; every other position
keeps its caption token. -/
def labels_text (max_text_seq_len : ℕ) (captions masks : List ℤ) : List ℤ :=
  let l1 := captions.map fun c => if c = 0 ∨ c = 101 ∨ c = 102 then -100 else c
  let mTail := masks.drop (masks.length - max_text_seq_len)
  List.zipWith (fun m c => if m = 1 then -100 else c) mTail l1

/-- Arithmetic mean of a list of rationals (`statistics.mean`). -/
def listMean (l : List ℚ) : ℚ := l.sum / l.length

/-- The per-batch scalar inputs `train_one_epoch` consumes for one batch: the
classification cross-entropy, the masked-text cross-entropy and the exclusion
term that the (abstracted) model and criteria produce for that batch. -/
structure TrainBatch where
  ceCls : ℚ
  ceText : ℚ
  excl : ℚ

/-- Observable outcome of the batch loop of `train_one_epoch`:
`losses` is `current_losses`, `maskQueries` the successive values of
`global_step[0]` passed to `mask_scheduler.ret_mask` (line 96), `gsFinal` the
value of `global_step[0]` when the loop ends, and `optSteps` the number of
optimizer updates (and learning-rate scheduler advances) performed. -/
structure EpochResult where
  losses : List ℚ
  maskQueries : List ℕ
  gsFinal : ℕ
  optSteps : ℕ

/-- The batch loop of `train_one_epoch` (`train.py` lines 85-149): per batch it
queries `ret_mask(global_step)` (line 96), composes the loss (118-122), runs
the optimizer and learning-rate scheduler (124-129), records the loss (131),
increments `global_step[0]` (line 134, after all uses this batch), and with
`debugging` breaks once `(i+1) % (log_freq*3) == 0` (line 148).  `i` is the
within-epoch batch index, `gs` the shared step counter at loop entry. -/
def trainLoop (args : Args) (retMaskActive : ℕ → Bool) :
    List TrainBatch → ℕ → ℕ → EpochResult
  | [], _, gs => ⟨[], [], gs, 0⟩
  | b :: rest, i, gs =>
    let mActive := retMaskActive gs
    let loss := composeLoss args mActive b.ceCls b.ceText b.excl
    if args.debugging = true ∧ (i + 1) % (args.log_freq * 3) = 0 then
      ⟨[loss], [gs], gs + 1, 1⟩
    else
      let r := trainLoop args retMaskActive rest (i + 1) (gs + 1)
      ⟨loss :: r.losses, gs :: r.maskQueries, r.gsFinal, r.optSteps + 1⟩

/-- The function `train_one_epoch` (`train.py` lines 74-158): runs the batch
loop and appends the mean of `current_losses` to `train_loss_avg`
(line 157). -/
def train_one_epoch (args : Args) (retMaskActive : ℕ → Bool)
    (batches : List TrainBatch) (gs : ℕ) (train_loss_avg : List ℚ) :
    EpochResult × List ℚ :=
  let r := trainLoop args retMaskActive batches 0 gs
  (r, train_loss_avg ++ [listMean r.losses])

/-- Modelled from the spec: `utilities.misc.accuracy` (called at `train.py`
line 219) is not among the sources here.  Per the spec, "a prediction counts
as correct for top-k if the true label appears among the k highest model
scores".  `rankedClasses` orders the class indices of one example by
decreasing score (ties broken by class index). -/
def rankedClasses (scores : List ℚ) : List ℕ :=
  List.insertionSort (fun i j => scores.getD j 0 ≤ scores.getD i 0)
    (List.range scores.length)

/-- Modelled from the spec: the true label is correct at top-k when it appears
among the `k` highest-scoring class indices of the example. -/
def topkCorrect (k : ℕ) (scores : List ℚ) (label : ℕ) : Bool :=
  decide (label ∈ (rankedClasses scores).take k)

/-- The per-batch inputs `validate` consumes: the abstracted scalar loss terms
plus, per example of the batch, its vector of class scores (`outputs.data`)
and its true label. -/
structure ValBatch where
  ceCls : ℚ
  ceText : ℚ
  excl : ℚ
  examples : List (List ℚ × ℕ)

/-- Number of examples of a validation batch counted correct at top-k. -/
def batchCorrect (k : ℕ) (b : ValBatch) : ℕ :=
  b.examples.countP fun e => topkCorrect k e.1 e.2

/-- Accumulators of the batch loop of `validate`: `correct_1`, `correct_5`,
`total`, `current_losses`, and the trace of step-counter values passed to
`ret_mask` (line 187). -/
structure ValLoopResult where
  correct1 : ℕ
  correct5 : ℕ
  total : ℕ
  losses : List ℚ
  maskQueries : List ℕ

/-- The batch loop of `validate` (`train.py` lines 178-232): per batch it
queries `ret_mask(global_step)` with the unchanged counter, composes the same
loss as training, accumulates `total`, `correct_1`, `correct_5`
(lines 218-221), and with `debugging` breaks once `(i+1) % (log_freq*3) == 0`
(line 231).  No optimizer step, no learning-rate step, no counter update. -/
def valLoop (args : Args) (retMaskActive : ℕ → Bool) (gs : ℕ) :
    List ValBatch → ℕ → ValLoopResult
  | [], _ => ⟨0, 0, 0, [], []⟩
  | b :: rest, i =>
    let mActive := retMaskActive gs
    let loss := composeLoss args mActive b.ceCls b.ceText b.excl
    if args.debugging = true ∧ (i + 1) % (args.log_freq * 3) = 0 then
      ⟨batchCorrect 1 b, batchCorrect 5 b, b.examples.length, [loss], [gs]⟩
    else
      let r := valLoop args retMaskActive gs rest (i + 1)
      ⟨batchCorrect 1 b + r.correct1, batchCorrect 5 b + r.correct5,
        b.examples.length + r.total, loss :: r.losses, gs :: r.maskQueries⟩

/-- The percentage computed at `train.py` lines 238 and 243:
`100 * correct / total`. -/
def accPercent (correct total : ℕ) : ℚ := 100 * (correct : ℚ) / (total : ℚ)

/-- Everything observable about one call of `validate`: its return value, the
three history lists after the call, the step counter and the learning rate
after the call (`validate` contains no write to either), the number of
optimizer updates it performed, and the trace of counter values it passed to
`ret_mask`. -/
structure ValReturn where
  ret : ℚ
  top1_accuracies : List ℚ
  top5_accuracies : List ℚ
  val_loss_avg : List ℚ
  gs : ℕ
  lr : ℚ
  optSteps : ℕ
  maskQueries : List ℕ

/-- The function `validate` (`train.py` lines 161-253): runs the batch loop with gradients
disabled, appends the mean loss to `val_loss_avg` (line 235), computes the
top-1 and top-5 percentages, appends them to the accuracy histories
(lines 238-244) and returns the top-1 percentage (line 253).  `gs` and `lr`
are the shared step counter and the optimizer's learning rate at entry; the
function body never assigns either. -/
def validate (args : Args) (retMaskActive : ℕ → Bool) (gs : ℕ) (lr : ℚ)
    (batches : List ValBatch)
    (top1_accuracies top5_accuracies val_loss_avg : List ℚ) : ValReturn :=
  let a := valLoop args retMaskActive gs batches 0
  let t1 := accPercent a.correct1 a.total
  let t5 := accPercent a.correct5 a.total
  { ret := t1
    top1_accuracies := top1_accuracies ++ [t1]
    top5_accuracies := top5_accuracies ++ [t5]
    val_loss_avg := val_loss_avg ++ [listMean a.losses]
    gs := gs
    lr := lr
    optSteps := 0
    maskQueries := a.maskQueries }

/-- The best-checkpoint state of `train_main`: `top_acc` (initialised 0) and
`best_epoch` (initialised 0, stored 1-indexed). -/
structure CkptState where
  top_acc : ℚ
  best_epoch : ℕ
deriving Repr

/-- The checkpoint decision after one epoch, `train.py` lines 291-295: persist
and update exactly when `curr_acc > top_acc`; the returned Bool records
whether `torch.save` ran. -/
def ckptStep (st : CkptState) (epoch : ℕ) (curr_acc : ℚ) : CkptState × Bool :=
  if st.top_acc < curr_acc then (⟨curr_acc, epoch + 1⟩, true) else (st, false)

/-- The checkpoint selector run over the successive per-epoch top-1
accuracies, starting at epoch index `epoch`. -/
def runEpochsAux (epoch : ℕ) (st : CkptState) : List ℚ → CkptState × List Bool
  | [] => (st, [])
  | a :: rest =>
    let p := ckptStep st epoch a
    let q := runEpochsAux (epoch + 1) p.1 rest
    (q.1, p.2 :: q.2)

/-- The checkpoint selector of `train_main` over a whole run: fed the per-epoch
top-1 accuracies in order, from the initial state `top_acc = 0`,
`best_epoch = 0`; returns the final state and the per-epoch save flags. -/
def runEpochs (accs : List ℚ) : CkptState × List Bool :=
  runEpochsAux 0 ⟨0, 0⟩ accs

/-- The mutable run-level state of `train_main` that the epoch loop threads:
the step counter, the best-checkpoint state, the four history lists and the
trace of save decisions. -/
structure RunState where
  gs : ℕ
  st : CkptState
  train_loss_avg : List ℚ
  top1_accuracies : List ℚ
  top5_accuracies : List ℚ
  val_loss_avg : List ℚ
  saved : List Bool

/-- One iteration of the epoch loop of `train_main` (`train.py`
lines 275-295): train one epoch, validate on the validation loader passing the
run's `val_loss_avg` list, then the checkpoint decision. -/
def runEpochBody (args : Args) (retMaskActive : ℕ → Bool) (lr : ℚ) (epoch : ℕ)
    (s : RunState) (d : List TrainBatch × List ValBatch) : RunState :=
  let t := train_one_epoch args retMaskActive d.1 s.gs s.train_loss_avg
  let v := validate args retMaskActive t.1.gsFinal lr d.2
    s.top1_accuracies s.top5_accuracies s.val_loss_avg
  let c := ckptStep s.st epoch v.ret
  ⟨v.gs, c.1, t.2, v.top1_accuracies, v.top5_accuracies, v.val_loss_avg,
    s.saved ++ [c.2]⟩

/-- The epoch loop of `train_main`, one `runEpochBody` per element of the
per-epoch data. -/
def runLoop (args : Args) (retMaskActive : ℕ → Bool) (lr : ℚ) :
    ℕ → RunState → List (List TrainBatch × List ValBatch) → RunState
  | _, s, [] => s
  | epoch, s, d :: rest =>
    runLoop args retMaskActive lr (epoch + 1)
      (runEpochBody args retMaskActive lr epoch s d) rest

/-- Everything observable at the end of `train_main`: the history lists, the
list the test pass's mean loss went to (`validate`'s default-argument list,
since the call at line 298 omits `val_loss_avg`), the final checkpoint state,
the save-decision trace and the final step counter. -/
structure RunResult where
  train_loss_avg : List ℚ
  top1_accuracies : List ℚ
  top5_accuracies : List ℚ
  val_loss_avg : List ℚ
  default_val_loss : List ℚ
  top_acc : ℚ
  best_epoch : ℕ
  saved : List Bool
  gs : ℕ

/-- The function `train_main` (`train.py` lines 256-305): initialise the run state
(lines 265-273), run the epoch loop, then run one more `validate` on the test
loader (lines 298-299) — that call passes the accuracy histories but omits
`val_loss_avg`, so its mean loss lands in the default-argument list (empty at
that point within a single run), and it is followed by no checkpoint check. -/
def train_main (args : Args) (retMaskActive : ℕ → Bool) (lr : ℚ)
    (epochData : List (List TrainBatch × List ValBatch))
    (testData : List ValBatch) : RunResult :=
  let s := runLoop args retMaskActive lr 0 ⟨0, ⟨0, 0⟩, [], [], [], [], []⟩ epochData
  let v := validate args retMaskActive s.gs lr testData
    s.top1_accuracies s.top5_accuracies []
  ⟨s.train_loss_avg, v.top1_accuracies, v.top5_accuracies, s.val_loss_avg,
    v.val_loss_avg, s.st.top_acc, s.st.best_epoch, s.saved, s.gs⟩

/-- The text prompt built by `return_prepared_inputs` (`inference.py`
lines 127-134) in multimodal mode: when `masking_behavior == 'constant'` the
prompt is all ones (`torch.ones`); otherwise position `j` holds the `j`-th
value drawn by `torch.randint(0, vocab_size-1, ...)`, abstracted by `draw j`
(a uniform draw from `0 .. vocab_size-2`, the upper bound of `randint` being
exclusive).  Afterwards position 0 is overwritten with
`special_tokens[1]` (the start token) and the last position with
`special_tokens[2]` (the end token). -/
def return_prepared_inputs (constantBehavior : Bool) (max_text_seq_len : ℕ)
    (draw : ℕ → ℕ) (startTok endTok : ℕ) : List ℕ :=
  let base := if constantBehavior = true then List.replicate max_text_seq_len 1
    else (List.range max_text_seq_len).map draw
  (base.set 0 startTok).set (max_text_seq_len - 1) endTok

/-- The per-step composed losses of a run of consecutive batches whose first
batch executes at step-counter value `gs`: the loss of batch `j` is composed
with the mask the scheduler returns at counter value `gs + j`. -/
def stepLosses (args : Args) (retMaskActive : ℕ → Bool) :
    List TrainBatch → ℕ → List ℚ
  | [], _ => []
  | b :: rest, gs =>
    composeLoss args (retMaskActive gs) b.ceCls b.ceText b.excl ::
      stepLosses args retMaskActive rest (gs + 1)

/-- The top-1 percentage `validate` computes for a validation batch stream.
The correctness counts of `valLoop` do not depend on the mask function or the
step counter (proved below), so they are instantiated arbitrarily here. -/
def epochTop1 (args : Args) (batches : List ValBatch) : ℚ :=
  let a := valLoop args (fun _ => false) 0 batches 0
  accPercent a.correct1 a.total

/-- A concrete non-debugging configuration used for counterexamples. -/
def argsND : Args := ⟨true, true, false, 0, 1, 16, 10, false, 1⟩

/-- A concrete validation batch with a single example of two classes whose
score vector ranks the wrong class first: scores `[0, 1]`, true label `0`. -/
def cexBatch : ValBatch := ⟨0, 0, 0, [([0, 1], 0)]⟩

/-- A concrete configuration with `debugging = True` and `log_freq = 1`. -/
def argsDbg : Args := ⟨true, true, false, 0, 1, 16, 1, true, 1⟩

/-- A concrete configuration with the exclusion objective enabled,
`exclusion_weight = 2` and `temperature = 3`. -/
def argsEL : Args := ⟨true, true, true, 2, 3, 16, 10, false, 5⟩

example :
    composeLoss ⟨true, true, false, 0, 0, 16, 10, false, 5⟩ true 3 4 7 = 7 := by
  norm_num [composeLoss]

example :
    composeLoss ⟨true, true, true, 2, 3, 16, 10, false, 5⟩ true 3 4 1 = -11 := by
  norm_num [composeLoss]

example : labels_text 4 [101, 5000, 6000, 102] [0, 0, 0, 1, 0] =
    [-100, 5000, -100, -100] := by decide

example : runEpochs [70, 65, 75] = (⟨75, 3⟩, [true, false, true]) := by
  norm_num [runEpochs, runEpochsAux, ckptStep]

example : rankedClasses [5, 9, 1] = [1, 0, 2] := by
  norm_num [rankedClasses, List.insertionSort, List.orderedInsert]

example : topkCorrect 1 [5, 9, 1] 1 = true := by
  norm_num [topkCorrect, rankedClasses, List.insertionSort, List.orderedInsert]

example : return_prepared_inputs false 5 (fun j => j + 10) 101 102 =
    [101, 11, 12, 13, 102] := by decide

lemma stepLosses_length (args : Args) (rm : ℕ → Bool) :
    ∀ (batches : List TrainBatch) (gs : ℕ),
      (stepLosses args rm batches gs).length = batches.length := by
  intro batches
  induction batches with
  | nil => intro gs; rfl
  | cons b rest ih => intro gs; simp [stepLosses, ih]

/-- Shape of the train batch loop: some prefix of `k` batches executes
(`k` is everything unless the debugging break fires), the recorded losses are
the step losses of that prefix, the mask scheduler is queried at the counter
values `gs, gs+1, ..., gs+k-1`, the counter ends at `gs + k`, and the
optimizer stepped `k` times. -/
lemma trainLoop_shape (args : Args) (rm : ℕ → Bool) :
    ∀ (batches : List TrainBatch) (i gs : ℕ),
      ∃ k, k ≤ batches.length ∧ (args.debugging = false → k = batches.length) ∧
        trainLoop args rm batches i gs =
          ⟨stepLosses args rm (batches.take k) gs, List.range' gs k, gs + k, k⟩ := by
  intro batches
  induction batches with
  | nil =>
    intro i gs
    exact ⟨0, by simp, by simp, by simp [trainLoop, stepLosses]⟩
  | cons b rest ih =>
    intro i gs
    by_cases hbr : args.debugging = true ∧ (i + 1) % (args.log_freq * 3) = 0
    · refine ⟨1, by simp, fun hd => by rw [hd] at hbr; simp at hbr, ?_⟩
      simp [trainLoop, hbr, stepLosses]
    · obtain ⟨k, hk, hkd, hek⟩ := ih (i + 1) (gs + 1)
      refine ⟨k + 1, by simpa using hk, fun hd => by simp [hkd hd], ?_⟩
      simp only [trainLoop, if_neg hbr, hek, List.take_succ_cons, stepLosses]
      rw [List.range'_succ]
      congr 1
      omega

/-- With debugging on, starting at a within-epoch index `i` whose distance to
the next break point is `c`, exactly `c` further batches execute. -/
lemma trainLoop_break (args : Args) (rm : ℕ → Bool) (hd : args.debugging = true) :
    ∀ (batches : List TrainBatch) (i gs c : ℕ), 0 < c → c ≤ args.log_freq * 3 →
      i % (args.log_freq * 3) = args.log_freq * 3 - c → c ≤ batches.length →
      trainLoop args rm batches i gs =
        ⟨stepLosses args rm (batches.take c) gs, List.range' gs c, gs + c, c⟩ := by
  intro batches
  induction batches with
  | nil =>
    intro i gs c hc _ _ hlen
    simp at hlen
    omega
  | cons b rest ih =>
    intro i gs c hc hcm hmod hlen
    obtain ⟨c', rfl⟩ : ∃ c', c = c' + 1 := ⟨c - 1, by omega⟩
    have hstep : (i + 1) % (args.log_freq * 3) =
        (i % (args.log_freq * 3) + 1) % (args.log_freq * 3) :=
      (Nat.mod_add_mod i (args.log_freq * 3) 1).symm
    rcases Nat.eq_zero_or_pos c' with h0 | hpos
    · subst h0
      have hbrk : (i + 1) % (args.log_freq * 3) = 0 := by
        rw [hstep, hmod]
        have he : args.log_freq * 3 - 1 + 1 = args.log_freq * 3 := by omega
        rw [he, Nat.mod_self]
      simp [trainLoop, hd, hbrk, stepLosses]
    · have hlt : args.log_freq * 3 - (c' + 1) + 1 < args.log_freq * 3 := by omega
      have hnb : (i + 1) % (args.log_freq * 3) = args.log_freq * 3 - c' := by
        rw [hstep, hmod, Nat.mod_eq_of_lt hlt]
        omega
      have hne : ¬ (args.debugging = true ∧ (i + 1) % (args.log_freq * 3) = 0) := by
        rintro ⟨-, hz⟩
        rw [hnb] at hz
        omega
      have hlen2 : c' ≤ rest.length := by simp at hlen; omega
      have hrec := ih (i + 1) (gs + 1) c' hpos (by omega) hnb hlen2
      simp only [trainLoop, if_neg hne, hrec, List.take_succ_cons, stepLosses]
      rw [List.range'_succ]
      congr 1
      omega

/-- C2 (amended): in every training epoch the shared step counter is
incremented exactly once per executed batch (never more), but the increment
happens after the mask scheduler and the learning-rate scheduler are used for
that batch: starting from counter value `gs`, the batch with 0-indexed
position `j` queries the scheduler at value `gs + j` (its pre-increment
value), so training step N sees scheduler value N-1, and the counter ends at
`gs` plus the number of executed batches. -/
theorem step_counter_incremented_once_after_schedulers
    (args : Args) (rm : ℕ → Bool) (batches : List TrainBatch) (gs : ℕ) :
    (trainLoop args rm batches 0 gs).gsFinal =
      gs + (trainLoop args rm batches 0 gs).losses.length ∧
    (trainLoop args rm batches 0 gs).maskQueries =
      List.range' gs (trainLoop args rm batches 0 gs).losses.length ∧
    ∀ j, j < (trainLoop args rm batches 0 gs).losses.length →
      (trainLoop args rm batches 0 gs).maskQueries.getD j 0 = gs + j := by
  obtain ⟨k, hk, -, hek⟩ := trainLoop_shape args rm batches 0 gs
  have hlen : (stepLosses args rm (batches.take k) gs).length = k := by
    rw [stepLosses_length, List.length_take]
    omega
  rw [hek]
  simp only [hlen]
  refine ⟨trivial, trivial, ?_⟩
  intro j hj
  rw [List.getD_eq_getElem _ _ (by simpa using hj), List.getElem_range'_1]

/-- C2 (counterexample): with the counter entering at 0, the very first
training batch queries the mask scheduler at counter value 0, not 1 — the
increment at `train.py` line 134 happens after the `ret_mask` query at
line 96 and after the learning-rate scheduler step at line 128, refuting the
claim that the increment precedes both scheduler uses. -/
theorem step_counter_preincrement_counterexample :
    (trainLoop argsND (fun _ => false) [⟨0, 0, 0⟩] 0 0).maskQueries = [0] ∧
    (trainLoop argsND (fun _ => false) [⟨0, 0, 0⟩] 0 0).gsFinal = 1 ∧
    (trainLoop argsND (fun _ => false) [⟨0, 0, 0⟩] 0 0).maskQueries ≠ [1] := by
  refine ⟨?_, ?_, ?_⟩ <;> simp [trainLoop, argsND]

/-- Witness for C2: a two-batch epoch entered at counter value 5 queries the
scheduler at value 5 + 1 for its second batch. -/
theorem step_counter_incremented_once_witness :
    (trainLoop argsND (fun _ => false) [⟨0, 0, 0⟩, ⟨1, 0, 0⟩] 0 5).maskQueries.getD 1 0 =
      5 + 1 :=
  (step_counter_incremented_once_after_schedulers argsND (fun _ => false)
    [⟨0, 0, 0⟩, ⟨1, 0, 0⟩] 5).2.2 1 (by simp [trainLoop, argsND])

/-- C5: the composed total loss is the classification cross-entropy, plus the
masked-text cross-entropy exactly when a mask is active this step, minus
`exclusion_weight * temperature^2 * exclusion_term` exactly when the
exclusion objective is enabled; with the exclusion objective disabled the
total equals bit-for-bit the two-term (or one-term) loss, which is also
exactly the exclusion-enabled composition of the same inputs with the
exclusion term zeroed. -/
theorem loss_composition (args : Args) (m : Bool) (ceCls ceText excl : ℚ) :
    (args.exclusion_loss = true →
      composeLoss args m ceCls ceText excl =
        ceCls + (if m = true then ceText else 0) -
          args.exclusion_weight * args.temperature ^ 2 * excl) ∧
    (args.exclusion_loss = false →
      composeLoss args m ceCls ceText excl =
        ceCls + (if m = true then ceText else 0) ∧
      composeLoss args m ceCls ceText excl =
        composeLoss { args with exclusion_loss := true } m ceCls ceText 0) := by
  unfold composeLoss
  constructor
  · intro h
    rw [h]
    cases m <;> simp
  · intro h
    rw [h]
    cases m <;> simp

/-- Witness for C5 at a concrete configuration (exclusion objective enabled,
weight 2, temperature 3) and concrete loss terms. -/
theorem loss_composition_witness :
    composeLoss argsEL true 3 4 1 =
      3 + (if true = true then 4 else 0) -
        argsEL.exclusion_weight * argsEL.temperature ^ 2 * 1 :=
  (loss_composition argsEL true 3 4 1).1 rfl

/-- C6: for a batch where the mask scheduler returned a mask, the
text-supervision targets assign the ignored label -100 exactly to the
positions whose caption token is 0 (`[PAD]`), 101 (`[CLS]`) or 102 (`[SEP]`)
and to the positions marked 1 within the last `max_text_seq_len` mask
positions; every other position keeps its caption token as its target. -/
theorem labels_text_targets (L : ℕ) (captions masks : List ℤ)
    (hc : captions.length = L) (hm : L ≤ masks.length) :
    (labels_text L captions masks).length = L ∧
    ∀ j, j < L →
      (labels_text L captions masks).getD j 0 =
        if captions.getD j 0 = 0 ∨ captions.getD j 0 = 101 ∨ captions.getD j 0 = 102
            ∨ (masks.drop (masks.length - L)).getD j 0 = 1
        then -100 else captions.getD j 0 := by
  have hdl : (masks.drop (masks.length - L)).length = L := by
    rw [List.length_drop]
    omega
  have hll : (labels_text L captions masks).length = L := by
    simp [labels_text, hdl, hc]
  refine ⟨hll, ?_⟩
  intro j hj
  have hj1 : j < (labels_text L captions masks).length := by omega
  have hj2 : j < (masks.drop (masks.length - L)).length := by omega
  have hj3 : j < captions.length := by omega
  rw [List.getD_eq_getElem _ _ hj1, List.getD_eq_getElem _ _ hj2,
    List.getD_eq_getElem _ _ hj3]
  simp only [labels_text, List.getElem_zipWith, List.getElem_map, List.getElem_drop]
  by_cases hmask : masks[masks.length - L + j] = 1
  · by_cases hsp : captions[j] = 0 ∨ captions[j] = 101 ∨ captions[j] = 102 <;>
      simp [hmask, hsp]
  · by_cases hsp : captions[j] = 0 ∨ captions[j] = 101 ∨ captions[j] = 102 <;>
      simp [hmask, hsp]

/-- Witness for C6: a caption of length 4 starting with `[CLS]`, ending with
`[SEP]`, with a mask marking the third position, against a 5-long mask whose
last 4 entries are `[0, 0, 1, 0]`. -/
theorem labels_text_targets_witness :
    (labels_text 4 [101, 5000, 6000, 102] [0, 0, 0, 1, 0]).getD 2 0 =
      if ([101, 5000, 6000, 102] : List ℤ).getD 2 0 = 0
          ∨ ([101, 5000, 6000, 102] : List ℤ).getD 2 0 = 101
          ∨ ([101, 5000, 6000, 102] : List ℤ).getD 2 0 = 102
          ∨ (([0, 0, 0, 1, 0] : List ℤ).drop
              (([0, 0, 0, 1, 0] : List ℤ).length - 4)).getD 2 0 = 1
      then -100 else ([101, 5000, 6000, 102] : List ℤ).getD 2 0 :=
  (labels_text_targets 4 [101, 5000, 6000, 102] [0, 0, 0, 1, 0]
    (by decide) (by decide)).2 2 (by decide)

/-- C8: with debugging mode enabled (and a positive `log_freq`, as the Python
modulus would otherwise fail), a training epoch with at least
`log_freq * 3` batches terminates after exactly `log_freq * 3` batches, and
the epoch-mean loss appended to the run history is the arithmetic mean of the
per-step losses of exactly the batches that ran. -/
theorem debug_early_exit_mean (args : Args) (rm : ℕ → Bool)
    (batches : List TrainBatch) (gs : ℕ) (tla : List ℚ)
    (hd : args.debugging = true) (hlf : 0 < args.log_freq)
    (hn : args.log_freq * 3 ≤ batches.length) :
    (train_one_epoch args rm batches gs tla).1.losses.length = args.log_freq * 3 ∧
    (train_one_epoch args rm batches gs tla).1.losses =
      stepLosses args rm (batches.take (args.log_freq * 3)) gs ∧
    (train_one_epoch args rm batches gs tla).2 =
      tla ++ [listMean (stepLosses args rm (batches.take (args.log_freq * 3)) gs)] := by
  have hb := trainLoop_break args rm hd batches 0 gs (args.log_freq * 3)
    (by omega) le_rfl (by simp) hn
  simp only [train_one_epoch, hb]
  refine ⟨?_, trivial, trivial⟩
  rw [stepLosses_length, List.length_take]
  omega

/-- Witness for C8: `log_freq = 1`, debugging on, four batches: the epoch
stops after three. -/
theorem debug_early_exit_mean_witness :
    (train_one_epoch argsDbg (fun _ => false)
        [⟨1, 0, 0⟩, ⟨2, 0, 0⟩, ⟨3, 0, 0⟩, ⟨4, 0, 0⟩] 0 []).1.losses.length =
      argsDbg.log_freq * 3 :=
  (debug_early_exit_mean argsDbg (fun _ => false)
    [⟨1, 0, 0⟩, ⟨2, 0, 0⟩, ⟨3, 0, 0⟩, ⟨4, 0, 0⟩] 0 [] rfl (by decide) (by decide)).1

/-- Shape of the validation batch loop: some prefix of `k` batches executes
(everything unless the debugging break fires); the correctness counts and the
example total are the sums over that prefix, the losses are the composed
losses of the prefix, and the mask scheduler is queried `k` times, all at the
unchanged entry counter. -/
lemma valLoop_shape (args : Args) (rm : ℕ → Bool) (gs : ℕ) :
    ∀ (batches : List ValBatch) (i : ℕ),
      ∃ k, k ≤ batches.length ∧ (args.debugging = false → k = batches.length) ∧
        valLoop args rm gs batches i =
          ⟨((batches.take k).map (batchCorrect 1)).sum,
           ((batches.take k).map (batchCorrect 5)).sum,
           ((batches.take k).map fun b => b.examples.length).sum,
           (batches.take k).map fun b =>
             composeLoss args (rm gs) b.ceCls b.ceText b.excl,
           List.replicate k gs⟩ := by
  intro batches
  induction batches with
  | nil =>
    intro i
    exact ⟨0, by simp, by simp, by simp [valLoop]⟩
  | cons b rest ih =>
    intro i
    by_cases hbr : args.debugging = true ∧ (i + 1) % (args.log_freq * 3) = 0
    · refine ⟨1, by simp, fun hd => by rw [hd] at hbr; simp at hbr, ?_⟩
      simp [valLoop, hbr]
    · obtain ⟨k, hk, hkd, hek⟩ := ih (i + 1)
      refine ⟨k + 1, by simpa using hk, fun hd => by simp [hkd hd], ?_⟩
      simp only [valLoop, if_neg hbr, hek, List.take_succ_cons, List.map_cons,
        List.sum_cons, List.replicate_succ]

lemma topkCorrect_mono {k k' : ℕ} (hkk : k ≤ k') (scores : List ℚ) (label : ℕ)
    (h : topkCorrect k scores label = true) : topkCorrect k' scores label = true := by
  simp only [topkCorrect, decide_eq_true_eq] at h ⊢
  have htk : (rankedClasses scores).take k = ((rankedClasses scores).take k').take k := by
    rw [List.take_take, min_eq_left hkk]
  rw [htk] at h
  exact List.mem_of_mem_take h

lemma batchCorrect_mono (b : ValBatch) : batchCorrect 1 b ≤ batchCorrect 5 b :=
  List.countP_mono_left fun e _ he => topkCorrect_mono (by omega) e.1 e.2 he

lemma valLoop_correct1_le_correct5 (args : Args) (rm : ℕ → Bool) (gs : ℕ)
    (batches : List ValBatch) (i : ℕ) :
    (valLoop args rm gs batches i).correct1 ≤ (valLoop args rm gs batches i).correct5 := by
  obtain ⟨k, -, -, hek⟩ := valLoop_shape args rm gs batches i
  rw [hek]
  exact List.sum_le_sum fun b _ => batchCorrect_mono b

/-- The correctness counts and the example total of the validation loop do
not depend on the mask function or on the step counter. -/
lemma valLoop_counts_indep (args : Args) (rm rm' : ℕ → Bool) (gs gs' : ℕ) :
    ∀ (batches : List ValBatch) (i : ℕ),
      (valLoop args rm gs batches i).correct1 = (valLoop args rm' gs' batches i).correct1 ∧
      (valLoop args rm gs batches i).correct5 = (valLoop args rm' gs' batches i).correct5 ∧
      (valLoop args rm gs batches i).total = (valLoop args rm' gs' batches i).total := by
  intro batches
  induction batches with
  | nil => intro i; exact ⟨rfl, rfl, rfl⟩
  | cons b rest ih =>
    intro i
    by_cases hbr : args.debugging = true ∧ (i + 1) % (args.log_freq * 3) = 0
    · simp [valLoop, hbr]
    · obtain ⟨h1, h5, ht⟩ := ih (i + 1)
      simp [valLoop, hbr, h1, h5, ht]

lemma accPercent_mono {c c' : ℕ} (h : c ≤ c') (t : ℕ) :
    accPercent c t ≤ accPercent c' t := by
  unfold accPercent
  rcases Nat.eq_zero_or_pos t with h0 | h0
  · subst h0
    simp
  · have ht : (0 : ℚ) < (t : ℚ) := by exact_mod_cast h0
    exact (div_le_div_right ht).mpr
      (mul_le_mul_of_nonneg_left (by exact_mod_cast h) (by norm_num))

/-- C3 (amended): for every validation epoch over any batch stream and any
label distribution, the reported top-5 accuracy percentage is greater than or
equal to the reported top-1 accuracy percentage (the top-5 correctness set
contains the top-1 correctness set); `validate` returns the top-1 percentage
and appends the top-5 percentage to its history list. -/
theorem top5_ge_top1 (args : Args) (rm : ℕ → Bool) (gs : ℕ) (lr : ℚ)
    (batches : List ValBatch) (t1 t5 vl : List ℚ) :
    (validate args rm gs lr batches t1 t5 vl).ret =
      accPercent (valLoop args rm gs batches 0).correct1
        (valLoop args rm gs batches 0).total ∧
    (validate args rm gs lr batches t1 t5 vl).top5_accuracies =
      t5 ++ [accPercent (valLoop args rm gs batches 0).correct5
        (valLoop args rm gs batches 0).total] ∧
    (validate args rm gs lr batches t1 t5 vl).ret ≤
      accPercent (valLoop args rm gs batches 0).correct5
        (valLoop args rm gs batches 0).total := by
  refine ⟨rfl, rfl, ?_⟩
  exact accPercent_mono (valLoop_correct1_le_correct5 args rm gs batches 0) _

/-- C3 (counterexample): a validation epoch with a single two-class example
whose true label is ranked second reports top-1 accuracy 0% and top-5
accuracy 100%, refuting the claim that top-1 ≥ top-5 holds for all label
distributions. -/
theorem top1_lt_top5_counterexample :
    (validate argsND (fun _ => false) 0 0 [cexBatch] [] [] []).ret <
      (validate argsND (fun _ => false) 0 0 [cexBatch] [] [] []).top5_accuracies.getD 0 0 := by
  norm_num [validate, valLoop, argsND, cexBatch, batchCorrect, topkCorrect,
    rankedClasses, List.insertionSort, List.orderedInsert, accPercent,
    List.countP_cons, List.countP_nil]

/-- C4: a validation pass never increments the shared step counter, never
advances the learning rate and performs no optimizer update: after `validate`
returns, the step counter and the optimizer's learning rate equal their
values at entry, zero optimizer steps have been taken, and every mask query
it makes reads exactly the counter value training left behind. -/
theorem validate_frame (args : Args) (rm : ℕ → Bool) (gs : ℕ) (lr : ℚ)
    (batches : List ValBatch) (t1 t5 vl : List ℚ) :
    (validate args rm gs lr batches t1 t5 vl).gs = gs ∧
    (validate args rm gs lr batches t1 t5 vl).lr = lr ∧
    (validate args rm gs lr batches t1 t5 vl).optSteps = 0 ∧
    ∀ q ∈ (validate args rm gs lr batches t1 t5 vl).maskQueries, q = gs := by
  refine ⟨rfl, rfl, rfl, ?_⟩
  intro q hq
  obtain ⟨k, -, -, hek⟩ := valLoop_shape args rm gs batches 0
  have hrep : (validate args rm gs lr batches t1 t5 vl).maskQueries =
      List.replicate k gs := by
    simp [validate, hek]
  rw [hrep] at hq
  exact List.eq_of_mem_replicate hq

/-- Witness for C4: with the counter left at 7 by training, the single mask
query of a one-batch validation pass reads 7, and the counter is still 7
after the pass. -/
theorem validate_frame_witness :
    (validate argsND (fun _ => false) 7 3 [cexBatch] [] [] []).gs = 7 ∧ (7 : ℕ) = 7 :=
  ⟨(validate_frame argsND (fun _ => false) 7 3 [cexBatch] [] [] []).1,
   (validate_frame argsND (fun _ => false) 7 3 [cexBatch] [] [] []).2.2.2 7
     (by simp [validate, valLoop, argsND])⟩

/-- C7: for every validation epoch with at least one example, the reported
top-1 accuracy equals `100 * correct_1 / total` and the reported top-5
accuracy equals `100 * correct_5 / total`, where the correctness counts and
the example total are summed over exactly the batches that ran, and
`validate` returns the top-1 percentage as its result; at `total = 1000`,
`correct_1 = 800`, `correct_5 = 950` the reported percentages are 80 and
95. -/
theorem validate_accuracy_formula (args : Args) (rm : ℕ → Bool) (gs : ℕ)
    (lr : ℚ) (batches : List ValBatch) (t1 t5 vl : List ℚ)
    (hpos : 0 < (valLoop args rm gs batches 0).total) :
    (∃ k, k ≤ batches.length ∧ (args.debugging = false → k = batches.length) ∧
      (validate args rm gs lr batches t1 t5 vl).ret =
        accPercent ((batches.take k).map (batchCorrect 1)).sum
          ((batches.take k).map fun b => b.examples.length).sum ∧
      (validate args rm gs lr batches t1 t5 vl).top1_accuracies =
        t1 ++ [(validate args rm gs lr batches t1 t5 vl).ret] ∧
      (validate args rm gs lr batches t1 t5 vl).top5_accuracies =
        t5 ++ [accPercent ((batches.take k).map (batchCorrect 5)).sum
          ((batches.take k).map fun b => b.examples.length).sum]) ∧
    accPercent 800 1000 = 80 ∧ accPercent 950 1000 = 95 := by
  refine ⟨?_, by norm_num [accPercent], by norm_num [accPercent]⟩
  obtain ⟨k, hk, hkd, hek⟩ := valLoop_shape args rm gs batches 0
  exact ⟨k, hk, hkd, by simp [validate, hek], rfl, by simp [validate, hek]⟩

/-- Witness for C7 at a concrete one-example stream, instantiating the
scenario percentages. -/
theorem validate_accuracy_formula_witness :
    accPercent 800 1000 = 80 ∧ accPercent 950 1000 = 95 :=
  (validate_accuracy_formula argsND (fun _ => false) 0 0 [cexBatch] [] [] []
    (by simp [valLoop, argsND, cexBatch])).2

/-- The checkpoint selector saves at position `e` exactly when the accuracy
at `e` strictly exceeds both the incoming best and every earlier accuracy of
the list. -/
lemma runEpochsAux_saved_iff :
    ∀ (l : List ℚ) (epoch : ℕ) (st : CkptState) (e : ℕ), e < l.length →
      ((runEpochsAux epoch st l).2.getD e false = true ↔
        (st.top_acc < l.getD e 0 ∧ ∀ j, j < e → l.getD j 0 < l.getD e 0)) := by
  intro l
  induction l with
  | nil =>
    intro epoch st e he
    simp at he
  | cons a rest ih =>
    intro epoch st e he
    match e with
    | 0 =>
      by_cases hlt : st.top_acc < a
      · simp [runEpochsAux, ckptStep, hlt]
      · simp [runEpochsAux, ckptStep, hlt]
    | e' + 1 =>
      have he' : e' < rest.length := by simpa using he
      have hmax : (ckptStep st epoch a).1.top_acc = max st.top_acc a := by
        unfold ckptStep
        by_cases hlt : st.top_acc < a
        · simp [hlt, max_eq_right (le_of_lt hlt)]
        · simp [hlt, max_eq_left (not_lt.mp hlt)]
      have hih := ih (epoch + 1) (ckptStep st epoch a).1 e' he'
      rw [hmax] at hih
      have hunf : (runEpochsAux epoch st (a :: rest)).2 =
          (ckptStep st epoch a).2 ::
            (runEpochsAux (epoch + 1) (ckptStep st epoch a).1 rest).2 := rfl
      rw [hunf, List.getD_cons_succ, hih]
      simp only [List.getD_cons_succ]
      constructor
      · rintro ⟨hmx, hall⟩
        rw [max_lt_iff] at hmx
        refine ⟨hmx.1, ?_⟩
        intro j hj
        match j with
        | 0 => simpa using hmx.2
        | j' + 1 => simpa using hall j' (by omega)
      · rintro ⟨hst, hall⟩
        refine ⟨max_lt_iff.mpr ⟨hst, by simpa using hall 0 (by omega)⟩, ?_⟩
        intro j hj
        simpa using hall (j + 1) (by omega)

/-- The top-1 percentage returned by `validate` is a function of the batch
stream alone (losses aside, which do not enter the percentage). -/
lemma validate_ret_eq_epochTop1 (args : Args) (rm : ℕ → Bool) (gs : ℕ) (lr : ℚ)
    (batches : List ValBatch) (t1 t5 vl : List ℚ) :
    (validate args rm gs lr batches t1 t5 vl).ret = epochTop1 args batches := by
  obtain ⟨h1, -, ht⟩ := valLoop_counts_indep args rm (fun _ => false) gs 0 batches 0
  simp [validate, epochTop1, h1, ht]

lemma runEpochBody_facts (args : Args) (rm : ℕ → Bool) (lr : ℚ) (epoch : ℕ)
    (s : RunState) (d : List TrainBatch × List ValBatch) :
    (runEpochBody args rm lr epoch s d).st =
      (ckptStep s.st epoch (epochTop1 args d.2)).1 ∧
    (runEpochBody args rm lr epoch s d).saved =
      s.saved ++ [(ckptStep s.st epoch (epochTop1 args d.2)).2] ∧
    (runEpochBody args rm lr epoch s d).top1_accuracies.length =
      s.top1_accuracies.length + 1 ∧
    (runEpochBody args rm lr epoch s d).top5_accuracies.length =
      s.top5_accuracies.length + 1 ∧
    (runEpochBody args rm lr epoch s d).val_loss_avg.length =
      s.val_loss_avg.length + 1 := by
  refine ⟨?_, ?_, ?_, ?_, ?_⟩
  · simp only [runEpochBody, validate_ret_eq_epochTop1]
  · simp only [runEpochBody, validate_ret_eq_epochTop1]
  · simp [runEpochBody, validate]
  · simp [runEpochBody, validate]
  · simp [runEpochBody, validate]

/-- Run-level correspondence: the checkpoint state and save decisions of the
epoch loop are exactly the checkpoint selector run over the per-epoch
validation top-1 accuracies, and each epoch appends exactly one entry to each
validation-side history list. -/
lemma runLoop_spec (args : Args) (rm : ℕ → Bool) (lr : ℚ) :
    ∀ (eD : List (List TrainBatch × List ValBatch)) (epoch : ℕ) (s : RunState),
      (runLoop args rm lr epoch s eD).st =
        (runEpochsAux epoch s.st (eD.map fun d => epochTop1 args d.2)).1 ∧
      (runLoop args rm lr epoch s eD).saved =
        s.saved ++ (runEpochsAux epoch s.st (eD.map fun d => epochTop1 args d.2)).2 ∧
      (runLoop args rm lr epoch s eD).top1_accuracies.length =
        s.top1_accuracies.length + eD.length ∧
      (runLoop args rm lr epoch s eD).top5_accuracies.length =
        s.top5_accuracies.length + eD.length ∧
      (runLoop args rm lr epoch s eD).val_loss_avg.length =
        s.val_loss_avg.length + eD.length := by
  intro eD
  induction eD with
  | nil =>
    intro epoch s
    simp [runLoop, runEpochsAux]
  | cons d rest ih =>
    intro epoch s
    obtain ⟨hst, hsv, h1, h5, hv⟩ := runEpochBody_facts args rm lr epoch s d
    obtain ⟨ist, isv, i1, i5, iv⟩ := ih (epoch + 1) (runEpochBody args rm lr epoch s d)
    simp only [runLoop, List.map_cons, runEpochsAux]
    refine ⟨?_, ?_, ?_, ?_, ?_⟩
    · rw [ist, hst]
    · rw [isv, hsv, hst]
      simp
    · rw [i1, h1]
      simp
      omega
    · rw [i5, h5]
      simp
      omega
    · rw [iv, hv]
      simp
      omega

/-- C1 (amended): a checkpoint is persisted after a training epoch iff that
epoch's validation top-1 accuracy strictly exceeds every prior epoch's top-1
accuracy in the same run AND strictly exceeds the initial best of 0 (ties
never persist); the saves and the final `top_acc`/`best_epoch` (stored as the
accuracy and the 1-indexed epoch) are exactly the checkpoint selector run
over the per-epoch top-1 accuracies; for accuracies 70, 65, 75 the checkpoint
is saved after epochs 1 and 3 only with `best_epoch = 3`; and the
post-training test pass contributes no save decision and leaves `top_acc` and
`best_epoch` exactly as the epoch loop left them. -/
theorem checkpoint_saved_iff_positive_strict_improvement :
    (∀ (accs : List ℚ) (e : ℕ), e < accs.length →
      ((runEpochs accs).2.getD e false = true ↔
        (0 < accs.getD e 0 ∧ ∀ j, j < e → accs.getD j 0 < accs.getD e 0))) ∧
    runEpochs [70, 65, 75] = (⟨75, 3⟩, [true, false, true]) ∧
    (∀ (args : Args) (rm : ℕ → Bool) (lr : ℚ)
        (eD : List (List TrainBatch × List ValBatch)) (tD : List ValBatch),
      (train_main args rm lr eD tD).saved =
        (runEpochs (eD.map fun d => epochTop1 args d.2)).2 ∧
      (train_main args rm lr eD tD).top_acc =
        (runEpochs (eD.map fun d => epochTop1 args d.2)).1.top_acc ∧
      (train_main args rm lr eD tD).best_epoch =
        (runEpochs (eD.map fun d => epochTop1 args d.2)).1.best_epoch) := by
  refine ⟨?_, by norm_num [runEpochs, runEpochsAux, ckptStep], ?_⟩
  · intro accs e he
    have hiff := runEpochsAux_saved_iff accs 0 ⟨0, 0⟩ e he
    simpa [runEpochs] using hiff
  · intro args rm lr eD tD
    obtain ⟨hst, hsv, -, -, -⟩ :=
      runLoop_spec args rm lr eD 0 ⟨0, ⟨0, 0⟩, [], [], [], [], []⟩
    exact ⟨by simp [train_main, runEpochs, hsv],
      by simp [train_main, runEpochs, hst],
      by simp [train_main, runEpochs, hst]⟩

/-- C1 (counterexample): a run whose single epoch has validation top-1
accuracy 0% — an accuracy that vacuously strictly exceeds every prior
epoch's — persists no checkpoint and leaves `best_epoch = 0`, because the
save test `curr_acc > top_acc` also compares against the initial best of
0. -/
theorem checkpoint_zero_accuracy_counterexample :
    (∀ j, j < 0 → ([0] : List ℚ).getD j 0 < ([0] : List ℚ).getD 0 0) ∧
    (runEpochs [0]).2.getD 0 false = false ∧
    (runEpochs [0]).1.best_epoch = 0 := by
  refine ⟨fun j hj => absurd hj (by omega), ?_, ?_⟩ <;>
    norm_num [runEpochs, runEpochsAux, ckptStep]

/-- Witness for C1: the saved-iff characterisation instantiated at the
scenario accuracies 70, 65, 75 and epoch index 2. -/
theorem checkpoint_saved_iff_witness :
    ((runEpochs [70, 65, 75]).2.getD 2 false = true ↔
      (0 < ([70, 65, 75] : List ℚ).getD 2 0 ∧
        ∀ j, j < 2 →
          ([70, 65, 75] : List ℚ).getD j 0 < ([70, 65, 75] : List ℚ).getD 2 0)) :=
  checkpoint_saved_iff_positive_strict_improvement.1 [70, 65, 75] 2 (by norm_num)

/-- C10: at the end of a run over `no_epochs` epochs the top-1 and top-5
accuracy histories hold exactly `no_epochs + 1` entries — the post-training
test pass appends its accuracies to the same lists — whereas the run's
`val_loss_avg` holds exactly `no_epochs` entries: the test pass omits the
`val_loss_avg` argument, so its mean loss lands in `validate`'s
default-argument list instead. -/
theorem history_list_lengths (args : Args) (rm : ℕ → Bool) (lr : ℚ)
    (eD : List (List TrainBatch × List ValBatch)) (tD : List ValBatch)
    (hE : eD.length = args.no_epochs) :
    (train_main args rm lr eD tD).top1_accuracies.length = args.no_epochs + 1 ∧
    (train_main args rm lr eD tD).top5_accuracies.length = args.no_epochs + 1 ∧
    (train_main args rm lr eD tD).val_loss_avg.length = args.no_epochs ∧
    (train_main args rm lr eD tD).default_val_loss.length = 1 := by
  obtain ⟨-, -, h1, h5, hv⟩ :=
    runLoop_spec args rm lr eD 0 ⟨0, ⟨0, 0⟩, [], [], [], [], []⟩
  refine ⟨?_, ?_, ?_, ?_⟩ <;> simp [train_main, validate, h1, h5, hv, hE]

/-- Witness for C10: a one-epoch run with a one-batch test stream. -/
theorem history_list_lengths_witness :
    (train_main argsND (fun _ => false) 1 [([], [cexBatch])]
        [cexBatch]).top1_accuracies.length = argsND.no_epochs + 1 :=
  (history_list_lengths argsND (fun _ => false) 1 [([], [cexBatch])] [cexBatch]
    (by simp [argsND])).1

lemma set_ends_getD (l : List ℕ) (L s e : ℕ) (hl : l.length = L) (hL : 2 ≤ L) :
    ((l.set 0 s).set (L - 1) e).getD 0 0 = s ∧
    ((l.set 0 s).set (L - 1) e).getD (L - 1) 0 = e ∧
    ∀ j, 0 < j → j + 1 < L → ((l.set 0 s).set (L - 1) e).getD j 0 = l.getD j 0 := by
  have hlen : ((l.set 0 s).set (L - 1) e).length = L := by simp [hl]
  refine ⟨?_, ?_, ?_⟩
  · rw [List.getD_eq_getElem _ _ (by omega)]
    rw [List.getElem_set_ne (by omega), List.getElem_set_self]
  · rw [List.getD_eq_getElem _ _ (by omega)]
    rw [List.getElem_set_self]
  · intro j hj0 hjL
    rw [List.getD_eq_getElem _ _ (by omega),
      List.getElem_set_ne (by omega), List.getElem_set_ne (by omega),
      List.getD_eq_getElem _ _ (by omega)]

/-- C9: in multimodal inference the text prompt is built by filling every
position with the fixed placeholder id 1 when `masking_behavior` is
`constant`, and otherwise with per-position draws from token ids 0 through
`vocab_size - 2` (the last vocabulary id excluded, `torch.randint`'s upper
bound being exclusive); in both cases, after the general fill, the first
sequence position is overwritten with the start token id and the last with
the end token id. -/
theorem text_prompt_construction (cb : Bool) (L : ℕ) (draw : ℕ → ℕ)
    (startTok endTok vocab : ℕ) (hL : 2 ≤ L)
    (hdraw : ∀ j, draw j < vocab - 1) :
    (return_prepared_inputs cb L draw startTok endTok).length = L ∧
    (return_prepared_inputs cb L draw startTok endTok).getD 0 0 = startTok ∧
    (return_prepared_inputs cb L draw startTok endTok).getD (L - 1) 0 = endTok ∧
    ∀ j, 0 < j → j + 1 < L →
      (return_prepared_inputs cb L draw startTok endTok).getD j 0 =
        (if cb = true then 1 else draw j) ∧
      (return_prepared_inputs cb L draw startTok endTok).getD j 0 ≤
        (if cb = true then 1 else vocab - 2) := by
  have hblen : (if cb = true then List.replicate L 1
      else (List.range L).map draw).length = L := by
    by_cases hcb : cb = true <;> simp [hcb]
  obtain ⟨hfst, hlst, hmid⟩ :=
    set_ends_getD (if cb = true then List.replicate L 1
      else (List.range L).map draw) L startTok endTok hblen hL
  have hbase : ∀ j, j < L →
      (if cb = true then List.replicate L 1
        else (List.range L).map draw).getD j 0 = (if cb = true then 1 else draw j) := by
    intro j hj
    by_cases hcb : cb = true
    · simp only [hcb, if_true]
      rw [List.getD_eq_getElem _ _ (by simp; omega)]
      simp
    · simp only [hcb, if_false]
      rw [List.getD_eq_getElem _ _ (by simp; omega)]
      simp
  refine ⟨by simp [return_prepared_inputs, hblen], hfst, hlst, ?_⟩
  intro j hj0 hjL
  have hval : (return_prepared_inputs cb L draw startTok endTok).getD j 0 =
      (if cb = true then 1 else draw j) := by
    rw [return_prepared_inputs, hmid j hj0 hjL, hbase j (by omega)]
  refine ⟨hval, ?_⟩
  rw [hval]
  have hdj := hdraw j
  cases cb with
  | true => simp
  | false =>
    simp only [if_neg (by simp : ¬ (false = true))]
    omega

/-- Witness for C9: a non-constant fill of length 5 whose draws are all 0
over a vocabulary of size 2, with start token 101 and end token 102. -/
theorem text_prompt_construction_witness :
    (return_prepared_inputs false 5 (fun _ => 0) 101 102).getD 0 0 = 101 ∧
    (return_prepared_inputs false 5 (fun _ => 0) 101 102).getD (5 - 1) 0 = 102 :=
  ⟨(text_prompt_construction false 5 (fun _ => 0) 101 102 2 (by omega)
      (fun _ => Nat.zero_lt_one)).2.1,
   (text_prompt_construction false 5 (fun _ => 0) 101 102 2 (by omega)
      (fun _ => Nat.zero_lt_one)).2.2.1⟩

end Animesion
